import Mathlib

/-
Verification of the httpterm connection-lifecycle layer (server.go).

The Go source is shallowly embedded: connections are identified by Nat,
durations and instants are Int nanoseconds (Go time.Duration is an int64
nanosecond count), the shared conns map is an association list, and every
side effect (SetReadDeadline calls, wrapper bookkeeping) is returned
explicitly by the embedded function.
-/

namespace Httpterm

/-- The http.ConnState enumeration together with the synthetic StateHead
value declared by the package (StateHead fires when the first bytes of a
request are read, before the engine parses them). -/
inductive ConnState
  | StateNew
  | StateActive
  | StateIdle
  | StateHijacked
  | StateClosed
  | StateHead
  deriving DecidableEq, Repr

/-- Go time.Millisecond expressed in nanoseconds. -/
def timeMillisecond : Int := 1000000

/-- The grace deadline applied to idle connections on server shutdown:
var waitOnClose = 100 * time.Millisecond. -/
def waitOnClose : Int := 100 * timeMillisecond

/-- The Server state relevant to this layer: the four timeout
configuration fields, the closing flag, the keep-alives switch of the
embedded http.Server (true means enabled, SetKeepAlivesEnabled(false)
turns it off), the conns map (connection id, active flag), and the
pending WaitGroup counter held by the wrapped listener (s.listener.wg). -/
structure Server where
  HeadReadTimeout : Int
  BodyReadTimeout : Int
  IdleTimeout : Int
  NewAsActive : Bool
  closing : Bool
  keepAlives : Bool
  conns : List (Nat × Bool)
  wg : Int
  deriving DecidableEq, Repr

/-- Go map assignment conns[c] = b, on an association list: one entry per
key (Go maps are unordered, so representation order is immaterial). -/
def connsSet (l : List (Nat × Bool)) (c : Nat) (b : Bool) : List (Nat × Bool) :=
  (c, b) :: l.filter (fun p => p.1 != c)

/-- Go map deletion delete(conns, c). -/
def connsDelete (l : List (Nat × Bool)) (c : Nat) : List (Nat × Bool) :=
  l.filter (fun p => p.1 != c)

/-- Go map lookup conns[c]. -/
def connsLookup (l : List (Nat × Bool)) (c : Nat) : Option Bool :=
  (l.find? (fun p => p.1 == c)).map Prod.snd

/-- Server.getTimeout from server.go: a new connection is reclassified
according to the NewAsActive policy, then the state selects one of the
three configured timeouts; states outside the switch yield the zero
duration. -/
def getTimeout (s : Server) (state : ConnState) : Int :=
  let st :=
    if state = ConnState.StateNew then
      (if s.NewAsActive then ConnState.StateHead else ConnState.StateIdle)
    else state
  match st with
  | ConnState.StateIdle => s.IdleTimeout
  | ConnState.StateHead => s.HeadReadTimeout
  | ConnState.StateActive => s.BodyReadTimeout
  | _ => 0

/-- Result of one Server.updateConnState call: the updated server state,
the absolute deadline passed to c.SetReadDeadline when such a call was
issued (none when no call was issued), and whether the rtConn idle
method was invoked on the wrapper. -/
structure UpdateEffect where
  server : Server
  setDeadline : Option Int
  idleSignal : Bool
  deriving DecidableEq, Repr

/-- Server.updateConnState from server.go: the conns map is updated by the
state switch (StateActive has no case and leaves the map untouched), the
listener WaitGroup is decremented on StateClosed and StateHijacked, the
rtConn wrapper is sent idle() on StateIdle, and the read deadline is set
from the policy when the server is not closing or the state is
StateHead/StateActive, and to the waitOnClose grace window otherwise. -/
def updateConnState (s : Server) (c : Nat) (state : ConnState) (now : Int) : UpdateEffect :=
  let conns :=
    match state with
    | ConnState.StateNew | ConnState.StateIdle => connsSet s.conns c false
    | ConnState.StateClosed | ConnState.StateHijacked => connsDelete s.conns c
    | ConnState.StateHead => connsSet s.conns c true
    | ConnState.StateActive => s.conns
  let wg :=
    match state with
    | ConnState.StateClosed | ConnState.StateHijacked => s.wg - 1
    | _ => s.wg
  let idleSignal := state = ConnState.StateIdle
  let setDeadline :=
    if s.closing = false ∨ state = ConnState.StateHead ∨ state = ConnState.StateActive then
      (if getTimeout s state ≠ 0 then some (now + getTimeout s state) else none)
    else
      some (now + waitOnClose)
  { server := { s with conns := conns, wg := wg },
    setDeadline := setDeadline,
    idleSignal := idleSignal }

/-- Errors returned by Server.Close: the package level ErrClosing, or an
error propagated verbatim from the underlying listener Close. -/
inductive GoError
  | ErrClosing
  | underlying (code : Nat)
  deriving DecidableEq, Repr

/-- Result of one Server.Close call: the server state afterwards, whether
the underlying listener Close was invoked, the SetReadDeadline calls
issued (connection id, absolute deadline), and the returned error. -/
structure CloseEffects where
  server : Server
  listenerCloseCalled : Bool
  deadlineCalls : List (Nat × Int)
  result : Option GoError
  deriving DecidableEq, Repr

/-- Server.Close from server.go. listenerCloseResult stands for the value
returned by s.listener.Close (none = nil). Under the lock: an already
closing server returns ErrClosing at once; a failing listener Close
returns that error before any state change; otherwise keep-alives are
disabled, closing is set, and every inactive connection in the map gets
the now plus waitOnClose read deadline. -/
def Server.Close (s : Server) (listenerCloseResult : Option Nat) (now : Int) : CloseEffects :=
  if s.closing then
    { server := s, listenerCloseCalled := false, deadlineCalls := [],
      result := some GoError.ErrClosing }
  else
    match listenerCloseResult with
    | some e =>
      { server := s, listenerCloseCalled := true, deadlineCalls := [],
        result := some (GoError.underlying e) }
    | none =>
      let deadline := now + waitOnClose
      { server := { s with keepAlives := false, closing := true },
        listenerCloseCalled := true,
        deadlineCalls := (s.conns.filter (fun p => !p.2)).map (fun p => (p.1, deadline)),
        result := none }

/-- The tail of Server.Serve from server.go: after the engine serve loop
returns err, the error is cleared when the server is closing and returned
unchanged otherwise. -/
def serveFinish (closing : Bool) (err : Option Nat) : Option Nat :=
  if closing then none else err

/-- The rtConn wrapper state: the boolean active flag (the callback
closure is left implicit; its invocation is reported by the Read model). -/
structure RtConn where
  active : Bool
  deriving DecidableEq, Repr

/-- rtConn.Read from server.go: n is the byte count returned by the
underlying Read. The callback fires when n is positive and the active
flag is false; the wrapper fields are not modified by Read (the source
never assigns active inside Read). Returns the wrapper afterwards and
whether the callback was invoked. -/
def RtConn.Read (c : RtConn) (n : Nat) : RtConn × Bool :=
  if 0 < n ∧ c.active = false then (c, true) else (c, false)

/-- rtConn.idle from server.go: clears the active flag. -/
def RtConn.idle (c : RtConn) : RtConn :=
  { c with active := false }

/-- The rtListener wrapper state from server.go: the NewAsActive policy
snapshot and the pending WaitGroup counter. The struct declares no closed
flag and no Close method of its own (the promoted Close of the embedded
listener is used directly). -/
structure RtListener where
  newAsActive : Bool
  wg : Int
  deriving DecidableEq, Repr

/-- rtListener.Accept from server.go: the WaitGroup is incremented before
the underlying Accept is attempted; res models the underlying result
(optional connection id, optional error). When a connection is returned
it is wrapped as an rtConn initialised from newAsActive; the deferred
wg.Done fires when no connection was returned. The underlying error is
returned without any translation. -/
def RtListener.Accept (l : RtListener) (res : Option Nat × Option Nat) :
    RtListener × Option RtConn × Option Nat :=
  let l1 : RtListener := { l with wg := l.wg + 1 }
  match res.1 with
  | some _ => (l1, some { active := l.newAsActive }, res.2)
  | none => ({ l1 with wg := l1.wg - 1 }, none, res.2)

/-- Events of the pending-counter system: an Accept call starting, the
underlying accept returning a connection or failing, a connection
reaching StateClosed or StateHijacked, the serve loop returning, and the
monitorPending goroutine closing the completion channel after wg.Wait. -/
inductive SysEvent
  | acceptStart
  | acceptOk (c : Nat)
  | acceptFail
  | connDone (c : Nat)
  | serveStop
  | monitorFire
  deriving DecidableEq, Repr

/-- Global state of the pending-counter system: the WaitGroup counter,
the number of Accept calls past wg.Add but not yet returned, the
accepted and still live connections, whether the serve loop has
returned, and whether the completion channel has been closed. -/
structure SysState where
  wgCounter : Int
  inflight : Nat
  opened : List Nat
  serveDone : Bool
  chClosed : Bool
  deriving DecidableEq, Repr

/-- One interleaving step of the pending-counter system, mirroring
server.go: wg.Add(1) precedes the underlying accept; the deferred
wg.Done fires on a failed accept; updateConnState calls wg.Done once on
the terminal notification of a live connection; a channel close can only
happen once, after the serve loop returned and wg.Wait observed zero.
Returns none when the event cannot occur in the given state. -/
def sysStep (s : SysState) (e : SysEvent) : Option SysState :=
  match e with
  | SysEvent.acceptStart =>
    if s.serveDone then none
    else some { s with wgCounter := s.wgCounter + 1, inflight := s.inflight + 1 }
  | SysEvent.acceptOk c =>
    if 0 < s.inflight ∧ ¬ c ∈ s.opened then
      some { s with inflight := s.inflight - 1, opened := c :: s.opened }
    else none
  | SysEvent.acceptFail =>
    if 0 < s.inflight then
      some { s with wgCounter := s.wgCounter - 1, inflight := s.inflight - 1 }
    else none
  | SysEvent.connDone c =>
    if c ∈ s.opened then
      some { s with wgCounter := s.wgCounter - 1, opened := s.opened.erase c }
    else none
  | SysEvent.serveStop =>
    if s.serveDone then none else some { s with serveDone := true }
  | SysEvent.monitorFire =>
    if s.serveDone = true ∧ s.wgCounter = 0 ∧ s.chClosed = false then
      some { s with chClosed := true }
    else none

/-- Initial state of the pending-counter system. -/
def sysInit : SysState :=
  { wgCounter := 0, inflight := 0, opened := [], serveDone := false, chClosed := false }

/-- Runs a sequence of events; none when some event is impossible. -/
def sysRun (s : SysState) : List SysEvent → Option SysState
  | [] => some s
  | e :: es =>
    match sysStep s e with
    | some s2 => sysRun s2 es
    | none => none

/-- Invariant of the pending-counter system: the WaitGroup counter equals
the in-flight accepts plus the live connections, the live list has no
duplicates, and the completion channel is closed only with a drained
counter after the serve loop returned. -/
def SysInv (s : SysState) : Prop :=
  s.wgCounter = (s.inflight : Int) + s.opened.length ∧
  s.opened.Nodup ∧
  (s.chClosed = true → s.wgCounter = 0 ∧ s.serveDone = true)

/-- A sample server used to instantiate theorems with hypotheses. -/
def srvTwo : Server :=
  { HeadReadTimeout := 5, BodyReadTimeout := 7, IdleTimeout := 11, NewAsActive := false,
    closing := false, keepAlives := true, conns := [(0, false), (1, true)], wg := 2 }

/-- A closing server with all timeouts zero, used as concrete input. -/
def srvZero : Server :=
  { HeadReadTimeout := 0, BodyReadTimeout := 0, IdleTimeout := 0, NewAsActive := false,
    closing := true, keepAlives := false, conns := [], wg := 0 }

/-- A closing server with nonzero timeouts, used as concrete input. -/
def srvClosing : Server :=
  { HeadReadTimeout := 5, BodyReadTimeout := 7, IdleTimeout := 11, NewAsActive := false,
    closing := true, keepAlives := false, conns := [(4, true)], wg := 1 }

/-- A sample event trace for the pending-counter system. -/
def trEx : List SysEvent :=
  [SysEvent.acceptStart, SysEvent.acceptOk 0, SysEvent.acceptStart, SysEvent.acceptFail,
   SysEvent.serveStop, SysEvent.connDone 0, SysEvent.monitorFire]

/-- The state reached by running the sample trace. -/
def stEx : SysState :=
  { wgCounter := 0, inflight := 0, opened := [], serveDone := true, chClosed := true }

/-- Looking up a key right after a Go map assignment yields the assigned
value. -/
theorem connsLookup_connsSet_self (l : List (Nat × Bool)) (c : Nat) (b : Bool) :
    connsLookup (connsSet l c b) c = some b := by
  unfold connsLookup connsSet
  rw [List.find?_cons_of_pos]
  · rfl
  · simp

/-- Looking up a key right after a Go map deletion yields nothing. -/
theorem connsLookup_connsDelete_self (l : List (Nat × Bool)) (c : Nat) :
    connsLookup (connsDelete l c) c = none := by
  unfold connsLookup connsDelete
  have h : List.find? (fun p => p.1 == c) (l.filter (fun p => p.1 != c)) = none := by
    rw [List.find?_eq_none]
    intro p hp
    have h2 := (List.mem_filter.1 hp).2
    simp only [bne_iff_ne, ne_eq, decide_eq_true_eq] at h2
    simp [h2]
  rw [h]
  rfl

/-- Server.Close on a non-closing server with a successful listener close
reduces to the full-shutdown branch. -/
theorem Close_notClosing_ok (s : Server) (now : Int) (h : s.closing = false) :
    Server.Close s none now =
      { server := { s with keepAlives := false, closing := true },
        listenerCloseCalled := true,
        deadlineCalls := (s.conns.filter (fun p => !p.2)).map
          (fun p => (p.1, now + waitOnClose)),
        result := none } := by
  unfold Server.Close
  rw [if_neg]
  simp [h]

/-- Each system step preserves the pending-counter invariant. -/
theorem sysStep_inv {s s2 : SysState} {e : SysEvent}
    (hInv : SysInv s) (h : sysStep s e = some s2) : SysInv s2 := by
  obtain ⟨hc, hnd, hch⟩ := hInv
  cases e with
  | acceptStart =>
    simp only [sysStep] at h
    split at h
    · exact absurd h (by simp)
    · simp only [Option.some.injEq] at h
      subst h
      refine ⟨by push_cast; omega, hnd, ?_⟩
      intro hcl
      rename_i hsd
      have := (hch hcl).2
      simp [this] at hsd
  | acceptOk c =>
    simp only [sysStep] at h
    split at h
    · simp only [Option.some.injEq] at h
      subst h
      rename_i hg
      refine ⟨?_, ?_, ?_⟩
      · simp only [List.length_cons]
        push_cast
        omega
      · exact List.Nodup.cons hg.2 hnd
      · intro hcl
        exact hch hcl
    · exact absurd h (by simp)
  | acceptFail =>
    simp only [sysStep] at h
    split at h
    · simp only [Option.some.injEq] at h
      subst h
      rename_i hg
      refine ⟨by push_cast; omega, hnd, ?_⟩
      intro hcl
      have h0 := (hch hcl).1
      rw [h0] at hc
      omega
    · exact absurd h (by simp)
  | connDone c =>
    simp only [sysStep] at h
    split at h
    · simp only [Option.some.injEq] at h
      subst h
      rename_i hg
      have hmem : c ∈ s.opened := hg
      refine ⟨?_, List.Nodup.erase c hnd, ?_⟩
      · rw [List.length_erase_of_mem hmem]
        have hlen : 0 < s.opened.length := List.length_pos_of_mem hmem
        push_cast
        omega
      · intro hcl
        have h0 := (hch hcl).1
        rw [h0] at hc
        have hlen : 0 < s.opened.length := List.length_pos_of_mem hmem
        omega
    · exact absurd h (by simp)
  | serveStop =>
    simp only [sysStep] at h
    split at h
    · exact absurd h (by simp)
    · simp only [Option.some.injEq] at h
      subst h
      exact ⟨hc, hnd, fun hcl => ⟨(hch hcl).1, rfl⟩⟩
  | monitorFire =>
    simp only [sysStep] at h
    split at h
    · simp only [Option.some.injEq] at h
      subst h
      rename_i hg
      exact ⟨hc, hnd, fun _ => ⟨hg.2.1, hg.1⟩⟩
    · exact absurd h (by simp)

/-- Running any event sequence preserves the pending-counter invariant. -/
theorem sysRun_inv (tr : List SysEvent) :
    ∀ s s2 : SysState, SysInv s → sysRun s tr = some s2 → SysInv s2 := by
  induction tr with
  | nil =>
    intro s s2 h hr
    simp only [sysRun, Option.some.injEq] at hr
    exact hr ▸ h
  | cons e es ih =>
    intro s s2 h hr
    simp only [sysRun] at hr
    cases hstep : sysStep s e with
    | none => rw [hstep] at hr; exact absurd hr (by simp)
    | some s1 =>
      rw [hstep] at hr
      exact ih s1 s2 (sysStep_inv h hstep) hr

/-- The initial system state satisfies the invariant. -/
theorem sysInit_inv : SysInv sysInit := by
  refine ⟨rfl, List.nodup_nil, ?_⟩
  intro h
  simp [sysInit] at h

/-- The setDeadline component of updateConnState, spelled out. -/
theorem updateConnState_setDeadline (s : Server) (c : Nat) (state : ConnState) (now : Int) :
    (updateConnState s c state now).setDeadline =
      if s.closing = false ∨ state = ConnState.StateHead ∨ state = ConnState.StateActive then
        (if getTimeout s state ≠ 0 then some (now + getTimeout s state) else none)
      else some (now + waitOnClose) := rfl

/-- C1 (counterexample): with every timeout configured to zero and the
server closing, an Idle transition resolves to the zero duration and yet
a SetReadDeadline call is issued, carrying the grace deadline; this
refutes the claim that a zero resolved duration never issues a call. -/
theorem zero_timeout_deadline_call_while_closing :
    getTimeout srvZero ConnState.StateIdle = 0 ∧
    (updateConnState srvZero 0 ConnState.StateIdle 0).setDeadline = some waitOnClose := by
  decide

/-- C1 (amended): getTimeout is a pure function whose table sends New to
HeadReadTimeout under NewAsActive and to IdleTimeout otherwise, Idle to
IdleTimeout, StateHead to HeadReadTimeout, Active to BodyReadTimeout and
the terminal states to zero; and when the server is not closing, or the
state is StateHead or StateActive, a zero resolved duration issues no
SetReadDeadline call. -/
theorem getTimeout_pure_policy_table (s : Server) (c : Nat) (now : Int) (state : ConnState) :
    getTimeout s ConnState.StateNew =
      (if s.NewAsActive then s.HeadReadTimeout else s.IdleTimeout) ∧
    getTimeout s ConnState.StateIdle = s.IdleTimeout ∧
    getTimeout s ConnState.StateHead = s.HeadReadTimeout ∧
    getTimeout s ConnState.StateActive = s.BodyReadTimeout ∧
    getTimeout s ConnState.StateClosed = 0 ∧
    getTimeout s ConnState.StateHijacked = 0 ∧
    ((s.closing = false ∨ state = ConnState.StateHead ∨ state = ConnState.StateActive) →
      getTimeout s state = 0 → (updateConnState s c state now).setDeadline = none) := by
  refine ⟨?_, rfl, rfl, rfl, rfl, rfl, ?_⟩
  · cases hn : s.NewAsActive <;> simp [getTimeout, hn]
  · intro hcond h0
    rw [updateConnState_setDeadline, if_pos hcond, if_neg (by simp [h0])]

/-- C1 (witness): instantiating the policy table at a concrete server and
the StateClosed transition. -/
theorem getTimeout_pure_policy_table_witness :
    getTimeout srvTwo ConnState.StateClosed = 0 ∧
    (updateConnState srvTwo 0 ConnState.StateClosed 0).setDeadline = none :=
  ⟨rfl, (getTimeout_pure_policy_table srvTwo 0 0 ConnState.StateClosed).2.2.2.2.2.2
      (Or.inl rfl) rfl⟩

/-- C2 (code evaluation at the failing input): a byte-returning read on an
inactive wrapper invokes the callback but leaves the active flag false,
so the immediately following byte-returning read invokes the callback
again; idle does clear the flag. The claim, the comment on the active
field and the StateHead documentation all expect the first read to flip
active to true, which the source never does. -/
theorem rtConn_read_never_sets_active :
    (RtConn.Read { active := false } 1).2 = true ∧
    ((RtConn.Read { active := false } 1).1).active = false ∧
    (RtConn.Read ((RtConn.Read { active := false } 1).1) 1).2 = true ∧
    (RtConn.idle { active := true }).active = false := by
  decide

/-- C3 (counterexample): a connection recorded inactive stays recorded
inactive across an Active notification, refuting the claim that Active
records the connection as active in the shared table. -/
theorem stateActive_leaves_record_inactive :
    connsLookup (updateConnState srvTwo 0 ConnState.StateActive 0).server.conns 0 =
      some false := by
  decide

/-- C3 (amended): the tracker records active=false on New and Idle,
active=true on StateHead, leaves the table unchanged on Active, and on
Closed and Hijacked deletes the record and decrements the pending
counter by one, leaving the counter unchanged on all other states. -/
theorem updateConnState_table (s : Server) (c : Nat) (now : Int) :
    connsLookup (updateConnState s c ConnState.StateNew now).server.conns c = some false ∧
    connsLookup (updateConnState s c ConnState.StateIdle now).server.conns c = some false ∧
    connsLookup (updateConnState s c ConnState.StateHead now).server.conns c = some true ∧
    (updateConnState s c ConnState.StateActive now).server.conns = s.conns ∧
    connsLookup (updateConnState s c ConnState.StateClosed now).server.conns c = none ∧
    connsLookup (updateConnState s c ConnState.StateHijacked now).server.conns c = none ∧
    (updateConnState s c ConnState.StateClosed now).server.wg = s.wg - 1 ∧
    (updateConnState s c ConnState.StateHijacked now).server.wg = s.wg - 1 ∧
    (updateConnState s c ConnState.StateNew now).server.wg = s.wg ∧
    (updateConnState s c ConnState.StateIdle now).server.wg = s.wg ∧
    (updateConnState s c ConnState.StateHead now).server.wg = s.wg ∧
    (updateConnState s c ConnState.StateActive now).server.wg = s.wg :=
  ⟨connsLookup_connsSet_self s.conns c false,
   connsLookup_connsSet_self s.conns c false,
   connsLookup_connsSet_self s.conns c true,
   rfl,
   connsLookup_connsDelete_self s.conns c,
   connsLookup_connsDelete_self s.conns c,
   rfl, rfl, rfl, rfl, rfl, rfl⟩

/-- C4: once the server is closing, StateHead and StateActive transitions
still receive the regular policy deadline (HeadReadTimeout respectively
BodyReadTimeout, or no call when that timeout is zero), and every other
transition receives the short waitOnClose grace deadline. -/
theorem closing_keeps_policy_for_requests (s : Server) (c : Nat) (now : Int)
    (state : ConnState) (h : s.closing = true) :
    ((updateConnState s c ConnState.StateHead now).setDeadline =
      if s.HeadReadTimeout = 0 then none else some (now + s.HeadReadTimeout)) ∧
    ((updateConnState s c ConnState.StateActive now).setDeadline =
      if s.BodyReadTimeout = 0 then none else some (now + s.BodyReadTimeout)) ∧
    (state ≠ ConnState.StateHead → state ≠ ConnState.StateActive →
      (updateConnState s c state now).setDeadline = some (now + waitOnClose)) := by
  refine ⟨?_, ?_, ?_⟩
  · rw [updateConnState_setDeadline, if_pos (Or.inr (Or.inl rfl))]
    have hg : getTimeout s ConnState.StateHead = s.HeadReadTimeout := rfl
    rw [hg]
    by_cases h0 : s.HeadReadTimeout = 0 <;> simp [h0]
  · rw [updateConnState_setDeadline, if_pos (Or.inr (Or.inr rfl))]
    have hg : getTimeout s ConnState.StateActive = s.BodyReadTimeout := rfl
    rw [hg]
    by_cases h0 : s.BodyReadTimeout = 0 <;> simp [h0]
  · intro h1 h2
    rw [updateConnState_setDeadline, if_neg (by simp [h, h1, h2])]

/-- C4 (witness): on a concrete closing server, StateHead keeps the head
timeout and StateIdle is truncated to the grace deadline. -/
theorem closing_keeps_policy_for_requests_witness :
    srvClosing.closing = true ∧
    (updateConnState srvClosing 0 ConnState.StateHead 1).setDeadline =
      some (1 + srvClosing.HeadReadTimeout) ∧
    (updateConnState srvClosing 0 ConnState.StateIdle 1).setDeadline =
      some (1 + waitOnClose) := by
  refine ⟨rfl, ?_, ?_⟩
  · rw [(closing_keeps_policy_for_requests srvClosing 0 1 ConnState.StateIdle rfl).1]
    decide
  · exact (closing_keeps_policy_for_requests srvClosing 0 1 ConnState.StateIdle rfl).2.2
      (by decide) (by decide)

/-- C5: on the first successful Close, every connection recorded inactive
gets the deadline now plus the 100ms grace period, and no deadline call
touches a connection recorded active. -/
theorem Close_grace_deadlines (s : Server) (now : Int)
    (h : s.closing = false) (hnd : (s.conns.map Prod.fst).Nodup) :
    (Server.Close s none now).result = none ∧
    (∀ c, (c, false) ∈ s.conns →
      (c, now + waitOnClose) ∈ (Server.Close s none now).deadlineCalls) ∧
    (∀ c, (c, true) ∈ s.conns →
      ∀ d, ¬ (c, d) ∈ (Server.Close s none now).deadlineCalls) ∧
    waitOnClose = 100 * timeMillisecond := by
  rw [Close_notClosing_ok s now h]
  refine ⟨rfl, ?_, ?_, rfl⟩
  · intro c hc
    exact List.mem_map.2 ⟨(c, false), List.mem_filter.2 ⟨hc, rfl⟩, rfl⟩
  · intro c hc d hmem
    have hmem2 : (c, d) ∈ (s.conns.filter (fun p => !p.2)).map
        (fun p => (p.1, now + waitOnClose)) := hmem
    obtain ⟨p, hp, hpe⟩ := List.mem_map.1 hmem2
    obtain ⟨hpl, hpf⟩ := List.mem_filter.1 hp
    have hp2 : p.2 = false := by simpa using hpf
    have hp1 : p.1 = c := by
      have := congrArg Prod.fst hpe
      simpa using this
    have hpc : p = (c, false) := by
      obtain ⟨a, b⟩ := p
      simp only at hp1 hp2
      rw [hp1, hp2]
    rw [hpc] at hpl
    have heq := List.inj_on_of_nodup_map hnd hc hpl rfl
    simp at heq

/-- C5 (witness): on a concrete two-connection server, the inactive
connection receives the grace deadline and the active one receives no
call. -/
theorem Close_grace_deadlines_witness :
    srvTwo.closing = false ∧
    (Server.Close srvTwo none 3).result = none ∧
    (0, 3 + waitOnClose) ∈ (Server.Close srvTwo none 3).deadlineCalls ∧
    ¬ (1, 99) ∈ (Server.Close srvTwo none 3).deadlineCalls :=
  ⟨rfl, (Close_grace_deadlines srvTwo 3 rfl (by decide)).1,
   (Close_grace_deadlines srvTwo 3 rfl (by decide)).2.1 0 (by decide),
   (Close_grace_deadlines srvTwo 3 rfl (by decide)).2.2.1 1 (by decide) 99⟩

/-- C6: a Close on an already closing server returns ErrClosing without
closing the listener, without deadline calls and without touching any
state, while the first call on a non-closing server returns nil when the
listener close succeeds. -/
theorem Close_second_call_rejected (s : Server) (r : Option Nat) (now : Int) :
    (s.closing = true →
      Server.Close s r now =
        { server := s, listenerCloseCalled := false, deadlineCalls := [],
          result := some GoError.ErrClosing }) ∧
    (s.closing = false → (Server.Close s none now).result = none) := by
  constructor
  · intro h
    unfold Server.Close
    rw [if_pos h]
  · intro h
    rw [Close_notClosing_ok s now h]

/-- C6 (witness): a concrete closing server rejects Close with ErrClosing
and a concrete fresh server closes with a nil result. -/
theorem Close_second_call_rejected_witness :
    Server.Close srvClosing (some 7) 0 =
      { server := srvClosing, listenerCloseCalled := false, deadlineCalls := [],
        result := some GoError.ErrClosing } ∧
    (Server.Close srvTwo none 0).result = none :=
  ⟨(Close_second_call_rejected srvClosing (some 7) 0).1 rfl,
   (Close_second_call_rejected srvTwo none 0).2 rfl⟩

/-- C7: along every realizable event sequence the pending counter equals
the in-flight accepts plus the live connections, is non-negative, and is
zero exactly when every accepted connection has terminated and no accept
is in flight; the completion channel is closed only once, with a drained
counter after the serve loop returned, a terminated connection cannot be
decremented again; and rtListener.Accept holds the counter incremented
during the underlying accept, keeping it on success and giving it back
on failure. -/
theorem pending_counter_correct (tr : List SysEvent) (s : SysState)
    (h : sysRun sysInit tr = some s) :
    (s.wgCounter = (s.inflight : Int) + s.opened.length ∧
     0 ≤ s.wgCounter ∧
     (s.wgCounter = 0 ↔ s.inflight = 0 ∧ s.opened = []) ∧
     (s.chClosed = true → s.wgCounter = 0 ∧ s.serveDone = true) ∧
     (s.chClosed = true → sysStep s SysEvent.monitorFire = none) ∧
     (∀ c, ¬ c ∈ s.opened → sysStep s (SysEvent.connDone c) = none)) ∧
    (∀ (l : RtListener) (res : Option Nat) (c0 : Nat),
      (RtListener.Accept l (some c0, res)).1.wg = l.wg + 1 ∧
      (RtListener.Accept l (none, res)).1.wg = l.wg + 1 - 1) := by
  obtain ⟨hc, hnd, hch⟩ := sysRun_inv tr sysInit s sysInit_inv h
  refine ⟨⟨hc, ?_, ?_, hch, ?_, ?_⟩, ?_⟩
  · rw [hc]
    positivity
  · constructor
    · intro h0
      rw [hc] at h0
      have h1 : s.inflight = 0 := by omega
      have h2 : s.opened.length = 0 := by omega
      exact ⟨h1, List.length_eq_zero.1 h2⟩
    · rintro ⟨h1, h2⟩
      rw [hc, h1, h2]
      simp
  · intro hcl
    simp only [sysStep]
    rw [if_neg (by simp [hcl])]
  · intro c hcmem
    simp only [sysStep]
    rw [if_neg hcmem]
  · intro l res c0
    exact ⟨rfl, rfl⟩

/-- C7 (witness): a concrete accept, fail, close and drain trace reaches
the drained state with the completion channel closed once. -/
theorem pending_counter_correct_witness :
    sysRun sysInit trEx = some stEx ∧ 0 ≤ stEx.wgCounter ∧
    sysStep stEx SysEvent.monitorFire = none :=
  ⟨by decide, (pending_counter_correct trEx stEx (by decide)).1.2.1,
   (pending_counter_correct trEx stEx (by decide)).1.2.2.2.2.1 rfl⟩

/-- C8 (counterexample): the wrapped listener of server.go has no closed
flag to mark, and an Accept failing after shutdown returns the generic
underlying error verbatim, not a distinguished translated condition. -/
theorem rtListener_accept_error_verbatim :
    RtListener.Accept { newAsActive := false, wg := 0 } (none, some 7) =
      ({ newAsActive := false, wg := 0 }, none, some 7) := by
  decide

/-- C8 (amended): the wrapped listener defines no Close of its own and
keeps no closed flag; errors from the underlying Accept are returned
unchanged, and the shutdown condition is instead suppressed by Serve,
which clears the error when the closing flag is set and keeps it intact
otherwise. -/
theorem listener_error_passthrough (l : RtListener) (e : Nat) (eng : Option Nat) :
    (RtListener.Accept l (none, some e)).2.2 = some e ∧
    (RtListener.Accept l (none, some e)).2.1 = none ∧
    serveFinish true eng = none ∧
    serveFinish false eng = eng :=
  ⟨rfl, rfl, rfl, rfl⟩

/-- C9: when the closing flag is set by the time the engine serve loop
returns, Serve reports a nil error; when the server is not closing the
engine error is propagated unchanged. -/
theorem serve_clears_error_when_closing (e : Option Nat) :
    serveFinish true e = none ∧ serveFinish false e = e :=
  ⟨rfl, rfl⟩

/-- C10: when the underlying listener Close fails, Close returns that
error with the server state untouched, so a subsequent Close is not
rejected with ErrClosing but performs the full shutdown sequence. -/
theorem Close_listener_error_atomic (s : Server) (e : Nat) (now now2 : Int)
    (h : s.closing = false) :
    Server.Close s (some e) now =
      { server := s, listenerCloseCalled := true, deadlineCalls := [],
        result := some (GoError.underlying e) } ∧
    (Server.Close s none now2).result = none ∧
    (Server.Close s none now2).server.closing = true ∧
    (Server.Close s none now2).server.keepAlives = false := by
  refine ⟨?_, ?_, ?_, ?_⟩
  · unfold Server.Close
    rw [if_neg (by simp [h])]
  · rw [Close_notClosing_ok s now2 h]
  · rw [Close_notClosing_ok s now2 h]
  · rw [Close_notClosing_ok s now2 h]

/-- C10 (witness): a concrete non-closing server keeps its state across a
failing Close and accepts the retry. -/
theorem Close_listener_error_atomic_witness :
    Server.Close srvTwo (some 7) 0 =
      { server := srvTwo, listenerCloseCalled := true, deadlineCalls := [],
        result := some (GoError.underlying 7) } ∧
    (Server.Close srvTwo none 0).result = none :=
  ⟨(Close_listener_error_atomic srvTwo 7 0 0 rfl).1,
   (Close_listener_error_atomic srvTwo 7 0 0 rfl).2.1⟩

end Httpterm
